import Mathlib

/-!
Verification of the B2BGeoRAG ingestion-to-retrieval pipeline.

This file shallowly embeds the pipeline logic of the repository:
the fixed-size chunker and the batched Pinecone uploader
(`src/controllers/uploadController.js`, `src/unnamed/part_003`), the
semantic chunker with quality filtering (`src/unnamed/part_004`), the
tenant-scoped similarity search and chat controller
(`src/unnamed/part_001`), the two multi-document ingestion controllers
(`src/unnamed/part_004` per-file try/catch, `src/unnamed/part_003`
Promise.all), and the embedding-concurrency semaphore
(`src/unnamed/part_003`).

External collaborators (the embedding model, the Pinecone store, the
chat-completion model) are parameters of the embedded functions, as the
code treats them as opaque services.  JavaScript numbers used as
similarity scores are modelled as rationals; strings are modelled by
Lean strings, with `s.data` giving the character list.  Fields whose
values come from the environment (uuidv4 ids, ISO timestamps) are
omitted from record types, as no verified property depends on them.
-/

namespace B2BGeoRAG

/-! ## Search data model (src/unnamed/part_001) -/

/-- Metadata carried by a Pinecone match, as read by `searchSimilarChunks`
(`match.metadata?.userId`, `.text`, `.filename`, `.chunkId`).  Every field is
optional because the JavaScript reads use optional chaining. -/
structure MatchMetadata where
  userId : Option String
  text : Option String
  filename : Option String
  chunkId : Option String
  deriving DecidableEq, Repr

/-- One match returned by the Pinecone `query` call: an id, a similarity
score and optional metadata. -/
structure PineconeMatch where
  id : String
  score : ℚ
  metadata : Option MatchMetadata
  deriving DecidableEq, Repr

/-- The object built for each filtered match by the `map` at the end of
`searchSimilarChunks`. -/
structure SearchResult where
  id : String
  similarity : ℚ
  preview : String
  fullText : String
  filename : Option String
  userId : Option String
  chunkId : Option String
  deriving DecidableEq, Repr

/-- JavaScript `s.slice(0, n)`: the first `n` characters of `s`. -/
def jsSlice (s : String) (n : Nat) : String := ⟨s.data.take n⟩

/-- The body of the `map` in `searchSimilarChunks`:
`previewText = match.metadata?.text?.slice(0, 300) || "No text available"`
(the `||` also replaces an empty slice, because `""` is falsy), and the
result object `{id, similarity, preview, fullText, filename, userId,
chunkId}` with `fullText = match.metadata?.text || ""`. -/
def toSearchResult (m : PineconeMatch) : SearchResult :=
  let previewText :=
    match m.metadata.bind MatchMetadata.text with
    | some t => if (jsSlice t 300).data = [] then "No text available" else jsSlice t 300
    | none => "No text available"
  { id := m.id
    similarity := m.score
    preview := previewText
    fullText := (m.metadata.bind MatchMetadata.text).getD ""
    filename := m.metadata.bind MatchMetadata.filename
    userId := m.metadata.bind MatchMetadata.userId
    chunkId := m.metadata.bind MatchMetadata.chunkId }

/-- `searchSimilarChunks(queryEmbedding, userId, maxResults)` from
`src/unnamed/part_001`.  The Pinecone index is modelled as a function
`store` from the requested `topK` to the list of matches it returns (the
query vector is fixed for the duration of one retrieval call).  The code
requests `topK: maxResults * 2`, filters the matches by
`match.metadata?.userId === userId`, keeps the first `maxResults` of the
filtered list, and maps each kept match to a `SearchResult`. -/
def searchSimilarChunks (store : Nat → List PineconeMatch) (userId : String)
    (maxResults : Nat) : List SearchResult :=
  let searchMatches := store (maxResults * 2)
  let filteredMatches :=
    (searchMatches.filter fun m => (m.metadata.bind MatchMetadata.userId) == some userId).take
      maxResults
  filteredMatches.map toSearchResult

/-! ## Fixed-size chunker (src/controllers/uploadController.js, src/unnamed/part_003) -/

/-- A chunk object pushed by `createTextChunks`.  The `id: uuidv4()` field
is supplied by the environment and carries no verified property, so it is
omitted.  `wordCount` is `chunkText.split(" ").length`. -/
structure TextChunk where
  text : String
  wordCount : Nat
  startPosition : Nat
  charCount : Nat
  deriving DecidableEq, Repr

/-- The `while (position < textContent.length)` loop of
`createTextChunks`: each iteration pushes the chunk
`textContent.slice(position, position + chunkSize)` and advances
`position += chunkSize`.  `fuel` bounds the number of loop iterations by
the number of remaining characters; with `chunkSize ≥ 1` every iteration
consumes at least one character, so starting the fuel at the text length
reproduces the loop exactly (the source loop does not terminate for
`chunkSize = 0`, a case the callers never exercise: they pass 500). -/
def createTextChunksAux (chunkSize : Nat) : Nat → Nat → List Char → List TextChunk
  | 0, _, _ => []
  | _ + 1, _, [] => []
  | fuel + 1, position, c :: cs =>
    let chunkText : String := ⟨(c :: cs).take chunkSize⟩
    { text := chunkText
      wordCount := (chunkText.data.splitOn ' ').length
      startPosition := position
      charCount := chunkText.length } ::
      createTextChunksAux chunkSize fuel (position + chunkSize) ((c :: cs).drop chunkSize)

/-- `createTextChunks(textContent, chunkSize = 500)` from
`src/controllers/uploadController.js` (identical loop in
`src/unnamed/part_003`). -/
def createTextChunks (textContent : String) (chunkSize : Nat) : List TextChunk :=
  createTextChunksAux chunkSize textContent.data.length 0 textContent.data

/-! ## Semantic chunker with quality filtering (src/unnamed/part_004) -/

/-- Number of characters of `s` matching the regex `[.,!?;]`
(`chunkText.match(/[.,!?;]/g) || []).length`). -/
def countPunctuation (s : String) : Nat :=
  s.data.countP fun c => c == '.' || c == ',' || c == '!' || c == '?' || c == ';'

/-- `chunkText.split(/\s+/).filter(word => word.length > 0).length`:
the number of maximal non-whitespace runs. -/
def jsWordCount (s : String) : Nat :=
  ((s.data.splitOnP fun c => c.isWhitespace).filter fun w => !w.isEmpty).length

/-- `Math.round(x * 1000) / 1000`, the three-decimal rounding applied to
`punctuationRatio` before it is stored.  Mathlib `round` rounds halves
up, as `Math.round` does for the non-negative values occurring here. -/
def jsRound3 (q : ℚ) : ℚ := (round (q * 1000) : ℚ) / 1000

/-- A chunk built by `createSemanticChunks` from one LangChain document.
The fields the later pipeline reads are kept; `id: uuidv4()` and the
purely logged quality fields (`avgWordLength`, `endsWithCompleteWord`,
`qualityScore`) are omitted.  `punctuationRatio` is the stored
`quality.punctuationRatio`, i.e. the rounded ratio; for an empty chunk
text the rational division yields `0` where JavaScript yields `NaN` —
both fail the `> 0.3` comparison, and such a chunk is dropped by the
word-count test anyway. -/
structure SemanticChunk where
  text : String
  wordCount : Nat
  charCount : Nat
  chunkIndex : Nat
  punctuationRatio : ℚ
  deriving DecidableEq, Repr

/-- The `map` body of `createSemanticChunks` applied to
`doc.pageContent` at position `index`. -/
def mkSemanticChunk (index : Nat) (chunkText : String) : SemanticChunk :=
  { text := chunkText
    wordCount := jsWordCount chunkText
    charCount := chunkText.length
    chunkIndex := index
    punctuationRatio :=
      jsRound3 ((countPunctuation chunkText : ℚ) / (chunkText.length : ℚ)) }

/-- `createSemanticChunks(textContent)` from `src/unnamed/part_004`,
parameterised by `pieces`, the `doc.pageContent` texts produced by the
external LangChain `RecursiveCharacterTextSplitter` (an external
collaborator).  Each piece becomes a chunk with quality metrics; the
final filter drops every chunk with
`chunk.wordCount < 5 || chunk.quality.punctuationRatio > 0.3`,
unconditionally — there is no fallback keeping a sole surviving chunk. -/
def createSemanticChunks (pieces : List String) : List SemanticChunk :=
  (pieces.mapIdx fun index pageContent => mkSemanticChunk index pageContent).filter
    fun chunk => !(decide (chunk.wordCount < 5) || decide (chunk.punctuationRatio > 3/10))

/-! ## Batched Pinecone upload (uploadChunksToPinecone, in
src/controllers/uploadController.js, src/unnamed/part_003 and
src/unnamed/part_004) -/

/-- A record pushed into `vectorsToUpload`: one per chunk, in chunk
order, with the metadata fields of the fixed-size pipeline.  The
`uploadedAt` timestamp is environment-supplied and omitted. -/
structure VectorRecord where
  id : String
  values : List ℚ
  userId : String
  filename : String
  text : String
  wordCount : Nat
  startPosition : Nat
  chunkId : String
  deriving DecidableEq, Repr

/-- `BATCH_SIZE = 100`, the configured upsert batch cap. -/
def BATCH_SIZE : Nat := 100

/-- The upload loop
`for (batchIndex = 0; batchIndex < vectorsToUpload.length; batchIndex += BATCH_SIZE)`:
each iteration upserts `vectorsToUpload.slice(batchIndex, batchIndex + BATCH_SIZE)`.
`fuel` bounds the iteration count by the number of remaining records
(each iteration consumes `BATCH_SIZE ≥ 1` of them). -/
def uploadBatchesAux : Nat → List VectorRecord → List (List VectorRecord)
  | 0, _ => []
  | _ + 1, [] => []
  | fuel + 1, v :: vs =>
    ((v :: vs).take BATCH_SIZE) :: uploadBatchesAux fuel ((v :: vs).drop BATCH_SIZE)

/-- `uploadChunksToPinecone`, viewed at its store interactions: the
sequence of sequential `pineconeIndex.upsert(currentBatch)` calls it
issues for a built `vectorsToUpload` list. -/
def uploadChunksToPinecone (vectorsToUpload : List VectorRecord) :
    List (List VectorRecord) :=
  uploadBatchesAux vectorsToUpload.length vectorsToUpload

/-! ## Chat controller (sendPrompt, src/unnamed/part_001) -/

/-- JavaScript `s.trim()`: strips leading and trailing whitespace.
(Modelled directly on character lists because the claims only evaluate
it on concrete queries; JS trims by the Unicode white-space property,
matched here by `Char.isWhitespace`.) -/
def jsTrim (s : String) : String :=
  ⟨((s.data.dropWhile Char.isWhitespace).reverse.dropWhile Char.isWhitespace).reverse⟩

/-- One entry of the `sources` array of a successful chat response:
`{filename, similarity, preview, chunkId}`. -/
structure SourceAttribution where
  filename : Option String
  similarity : ℚ
  preview : String
  chunkId : Option String
  deriving DecidableEq, Repr

/-- The JSON body of a `sendPrompt` response together with its HTTP
status.  Fields supplied by the environment (`processingTime`
timestamps, the fixed model-name strings echoed in `metadata`) are
omitted; absent JSON fields are `none`. -/
structure ChatResponse where
  status : Nat
  success : Bool
  error : Option String
  message : Option String
  query : Option String
  answer : Option String
  sources : List SourceAttribution
  chunksFound : Option Nat
  maxSimilarity : Option ℚ
  deriving DecidableEq, Repr

/-- The fixed fallback answer returned when zero chunks match. -/
def fallbackAnswer : String :=
  "I couldn\x27t find any relevant information in your uploaded documents to answer this question. Please make sure you have uploaded documents that contain information related to your query."

/-- The 400 response for a missing or blank query. -/
def emptyQueryResponse (query : Option String) : ChatResponse :=
  { status := 400, success := false, error := some "Query is required",
    message := some "Please provide a valid search query", query := query,
    answer := none, sources := [], chunksFound := none, maxSimilarity := none }

/-- `sendPrompt` from `src/unnamed/part_001` as a function of the request
(`query`, `maxResults`, `includeMetadata` from the body; the
authenticated user id, `req.user?._id`) and of its two collaborators:
`store` is the Pinecone query reached through `searchSimilarChunks`
(composed with the opaque query embedding), and `generate` is
`answerWithGPT4O`, the chat-completion call (which returns the trimmed
completion text).  Returns the HTTP response the controller sends. -/
def sendPrompt (query : Option String) (maxResults : Nat) (includeMetadata : Bool)
    (user : Option String) (store : Nat → List PineconeMatch)
    (generate : String → List SearchResult → String) : ChatResponse :=
  match query with
  | none => emptyQueryResponse none
  | some q =>
    if jsTrim q = "" then emptyQueryResponse (some q)
    else
      match user with
      | none =>
        { status := 401, success := false, error := some "Authentication required",
          message := some "User must be authenticated to send prompts", query := some q,
          answer := none, sources := [], chunksFound := none, maxSimilarity := none }
      | some userId =>
        let similarChunks := searchSimilarChunks store userId maxResults
        if similarChunks.length = 0 then
          { status := 200, success := true, error := none, message := none,
            query := some q, answer := some fallbackAnswer, sources := [],
            chunksFound := some 0, maxSimilarity := none }
        else
          { status := 200, success := true, error := none, message := none,
            query := some q, answer := some (generate q similarChunks),
            sources :=
              if includeMetadata then
                similarChunks.map fun c => ⟨c.filename, c.similarity, c.preview, c.chunkId⟩
              else [],
            chunksFound := some similarChunks.length,
            maxSimilarity := some ((similarChunks.head?.map SearchResult.similarity).getD 0) }

/-! ## Multi-document ingestion controllers (src/unnamed/part_004 and
src/unnamed/part_003) -/

/-- Statistics a successfully processed document reports.  Fields
derived from these (per-file averages, chunking-method label) and
environment timing are omitted. -/
structure DocumentStats where
  textLength : Nat
  chunksCreated : Nat
  vectorsUploaded : Nat
  deriving DecidableEq, Repr

/-- One entry of a per-document `results` array: either a success entry
with statistics or a `{filename, status: "error", error}` entry. -/
inductive FileResult
  | ok (filename : String) (stats : DocumentStats)
  | failed (filename : String) (error : String)
  deriving DecidableEq, Repr

/-- What processing one uploaded file (pdf parse, clean, chunk, embed,
upsert — all reaching external collaborators) produces, as seen by the
surrounding controller: statistics on success, a thrown message on
failure.  The outcomes are inputs of the controller models. -/
abbrev FileOutcome := String × Except String DocumentStats

/-- Body of the per-file `try/catch` in `uploadFiles` of
`src/unnamed/part_004`: a completed file pushes its success entry, a
caught `fileError` pushes `{filename, status: "error", error:
fileError.message}`. -/
def renderFileResult (outcome : FileOutcome) : FileResult :=
  match outcome.2 with
  | .ok stats => .ok outcome.1 stats
  | .error e => .failed outcome.1 e

/-- The response of an ingestion controller: HTTP status, `success`,
top-level `error`/`message` when present, the per-document `results`
and `totalFiles` when present. -/
structure UploadResponse where
  status : Nat
  success : Bool
  error : Option String
  message : Option String
  results : List FileResult
  totalFiles : Option Nat
  deriving DecidableEq, Repr

/-- The `for (const file of req.files)` loop of `uploadFiles` in
`src/unnamed/part_004`: each iteration catches its own failure and
appends exactly one entry to `results`, so no iteration can abort a
later one. -/
def uploadFilesSemanticLoop : List FileOutcome → List FileResult
  | [] => []
  | f :: fs => renderFileResult f :: uploadFilesSemanticLoop fs

/-- `uploadFiles` from `src/unnamed/part_004` (the semantic-chunking
controller): sequential per-file processing with a per-file `try/catch`,
always answering 200 with `success: true` and the per-document results
(even when some files failed). -/
def uploadFilesSemantic (outcomes : List FileOutcome) : UploadResponse :=
  { status := 200, success := true, error := none,
    message := some "PDF files processed with semantic chunking and indexed successfully",
    results := uploadFilesSemanticLoop outcomes,
    totalFiles := some outcomes.length }

/-- The rejection `Promise.all` surfaces, if any file task rejects
(`processFileInParallel` rethrows as `Failed to process <name>: <msg>`).
Which of several failing files settles first depends on scheduling;
list order stands in canonically.  The facts proved about this
controller — `success: false` and an empty `results` — do not depend on
that choice. -/
def firstFailure : List FileOutcome → Option (String × String)
  | [] => none
  | (name, .error e) :: _ => some (name, e)
  | (_, .ok _) :: fs => firstFailure fs

/-- `uploadFiles` from `src/unnamed/part_003` (the parallel controller):
`const results = await Promise.all(processingPromises)` rejects as soon
as any file task rejects, and the `catch` answers 500 with no
per-document `results`; only when every file succeeds does it answer
200 with all the success entries. -/
def uploadFilesParallel (outcomes : List FileOutcome) : UploadResponse :=
  match firstFailure outcomes with
  | some (name, e) =>
    { status := 500, success := false,
      error := some "Failed to process PDF files in optimized parallel pipeline",
      message := some ("Failed to process " ++ name ++ ": " ++ e),
      results := [], totalFiles := none }
  | none =>
    { status := 200, success := true, error := none,
      message := some "PDF files processed and indexed successfully with optimized parallel processing",
      results := outcomes.map renderFileResult,
      totalFiles := some outcomes.length }

/-- A batch in which the first document fails and the second succeeds,
used by the C2 counterexample. -/
def mixedOutcomeBatch : List FileOutcome :=
  [("a.pdf", Except.error "boom"), ("b.pdf", Except.ok ⟨10, 1, 1⟩)]

/-! ## Embedding concurrency semaphore (src/unnamed/part_003) -/

/-- `MAX_CONCURRENT_EMBEDDINGS = 3`, the default semaphore capacity. -/
def MAX_CONCURRENT_EMBEDDINGS : Nat := 3

/-- The phase of one `generateEmbeddingsForChunks` task with respect to
the semaphore: not yet past `waitForEmbeddingSlot`; holding a slot
inside the `try`; or finished with the slot released by the `finally`,
either normally (`doneOk`) or through a thrown error (`doneErr`). -/
inductive EmbedPhase
  | idle
  | holding
  | doneOk
  | doneErr
  deriving DecidableEq, Repr

/-- The state shared by the concurrent document tasks: each task's phase
and the module-global counter `embeddingSemaphore`. -/
structure EmbedState where
  tasks : List EmbedPhase
  semaphore : Nat
  deriving DecidableEq, Repr

/-- One scheduler step of the semaphore protocol of
`src/unnamed/part_003` under cap `N`.  `acquire` is the final iteration
of the `while (embeddingSemaphore >= MAX_CONCURRENT_EMBEDDINGS)` loop in
`waitForEmbeddingSlot` together with `embeddingSemaphore++`: in the
JavaScript event loop no other task runs between the loop condition
evaluating to false and the increment, so the guarded check and the
increment form one atomic step (earlier, still-blocked iterations only
sleep and change no state, so they need no transition).  `releaseOk` and
`releaseErr` are the `finally { releaseEmbeddingSlot(filename) }`
decrement, reached from the success path and from the failure path of
the `try` in `generateEmbeddingsForChunks`. -/
inductive EmbedStep (N : Nat) : EmbedState → EmbedState → Prop
  | acquire (tasks : List EmbedPhase) (sem i : Nat) (hi : i < tasks.length)
      (hidle : tasks.get ⟨i, hi⟩ = .idle) (hwait : sem < N) :
      EmbedStep N ⟨tasks, sem⟩ ⟨tasks.set i .holding, sem + 1⟩
  | releaseOk (tasks : List EmbedPhase) (sem i : Nat) (hi : i < tasks.length)
      (hholding : tasks.get ⟨i, hi⟩ = .holding) :
      EmbedStep N ⟨tasks, sem⟩ ⟨tasks.set i .doneOk, sem - 1⟩
  | releaseErr (tasks : List EmbedPhase) (sem i : Nat) (hi : i < tasks.length)
      (hholding : tasks.get ⟨i, hi⟩ = .holding) :
      EmbedStep N ⟨tasks, sem⟩ ⟨tasks.set i .doneErr, sem - 1⟩

/-- The initial state: `k` queued tasks, `embeddingSemaphore = 0`. -/
def initialEmbedState (k : Nat) : EmbedState := ⟨List.replicate k .idle, 0⟩

/-- States reachable by any interleaving of `k` concurrent tasks. -/
def EmbedReachable (N k : Nat) (s : EmbedState) : Prop :=
  Relation.ReflTransGen (EmbedStep N) (initialEmbedState k) s

/-- The number of tasks currently holding a slot. -/
def holdingCount (s : EmbedState) : Nat :=
  s.tasks.countP fun p => p == EmbedPhase.holding

/-! ## Concrete values used by witnesses and counterexamples -/

/-- A concrete match owned by tenant "alice", used by witnesses. -/
def aliceMatch : PineconeMatch :=
  ⟨"m1", 1, some ⟨some "alice", some "sky text", some "a.pdf", some "c1"⟩⟩

/-- A concrete match owned by tenant "bob", used by witnesses. -/
def bobMatch : PineconeMatch :=
  ⟨"m2", 0, some ⟨some "bob", some "other text", some "b.pdf", some "c2"⟩⟩

/-- A concrete two-tenant store, used by witnesses. -/
def mixedStore : Nat → List PineconeMatch := fun _ => [aliceMatch, bobMatch]

/-- A concrete match whose metadata carries no text, used by the C10
witness. -/
def textlessMatch : PineconeMatch :=
  ⟨"m3", 1, some ⟨some "alice", none, some "c.pdf", some "c3"⟩⟩

/-- A concrete vector record, used by the C6 witness. -/
def sampleRecord : VectorRecord :=
  ⟨"v1", [1, 0], "alice", "a.pdf", "sky text", 2, 0, "v1"⟩

/-! ## Theorems -/

/-- Ceiling-division step: removing one full chunk of `C` characters from
a non-empty text lowers `⌈len / C⌉` by exactly one. -/
lemma ceil_div_step (C len : Nat) (hC : 1 ≤ C) (hlen : 1 ≤ len) :
    (len + C - 1) / C = ((len - C) + C - 1) / C + 1 := by
  rcases le_or_lt len C with h | h
  · have h1 : len + C - 1 = (len - 1) + C := by omega
    have h2 : len - C = 0 := by omega
    rw [h1, Nat.add_div_right _ hC, h2]
    have h3 : (len - 1) / C = 0 := Nat.div_eq_of_lt (by omega)
    have h4 : (0 + C - 1) / C = 0 := Nat.div_eq_of_lt (by omega)
    rw [h3, h4]
  · have h1 : len + C - 1 = ((len - C) + C - 1) + C := by omega
    rw [h1, Nat.add_div_right _ hC]

/-- Loop invariant of `createTextChunks`: with enough fuel, the chunk
texts concatenate back to the input and the chunk count is
`⌈length / chunkSize⌉`. -/
lemma createTextChunksAux_spec (C : Nat) (hC : 1 ≤ C) :
    ∀ (fuel position : Nat) (cs : List Char), cs.length ≤ fuel →
      ((createTextChunksAux C fuel position cs).map (fun ch => ch.text.data)).flatten = cs ∧
      (createTextChunksAux C fuel position cs).length = (cs.length + C - 1) / C := by
  intro fuel
  induction fuel with
  | zero =>
    intro position cs hcs
    have hnil : cs = [] := List.eq_nil_of_length_eq_zero (Nat.le_zero.mp hcs)
    subst hnil
    refine ⟨rfl, ?_⟩
    show (0 : Nat) = (0 + C - 1) / C
    exact (Nat.div_eq_of_lt (by omega)).symm
  | succ fuel ih =>
    intro position cs hcs
    cases cs with
    | nil =>
      refine ⟨rfl, ?_⟩
      show (0 : Nat) = (0 + C - 1) / C
      exact (Nat.div_eq_of_lt (by omega)).symm
    | cons c cs' =>
      have hlen : (c :: cs').length = cs'.length + 1 := rfl
      have hrest_fuel : ((c :: cs').drop C).length ≤ fuel := by
        rw [List.length_drop]
        simp only [hlen]
        simp only [hlen] at hcs
        omega
      obtain ⟨ihj, ihl⟩ := ih (position + C) ((c :: cs').drop C) hrest_fuel
      constructor
      · show ((c :: cs').take C) ++
            ((createTextChunksAux C fuel (position + C) ((c :: cs').drop C)).map
              (fun ch => ch.text.data)).flatten = c :: cs'
        rw [ihj]
        exact List.take_append_drop C (c :: cs')
      · show (createTextChunksAux C fuel (position + C) ((c :: cs').drop C)).length + 1
            = ((c :: cs').length + C - 1) / C
        rw [ihl, List.length_drop]
        exact (ceil_div_step C (c :: cs').length hC (by simp)).symm

/-- `String.join` concatenates the underlying character lists. -/
lemma stringJoin_data (l : List String) : (String.join l).data = (l.map String.data).flatten := by
  show (l.foldl (fun r s => r ++ s) "").data = (l.map String.data).flatten
  have haux : ∀ (l : List String) (init : String),
      (l.foldl (fun r s => r ++ s) init).data = init.data ++ (l.map String.data).flatten := by
    intro l
    induction l with
    | nil => intro init; simp
    | cons s rest ihs =>
      intro init
      simp only [List.foldl_cons, List.map_cons, List.flatten_cons]
      rw [ihs (init ++ s), String.data_append]
      simp
  rw [haux l ""]
  rfl

/-- Loop invariant of the upload loop: with enough fuel the batches
flatten back to the record list, number `⌈n / BATCH_SIZE⌉`, and each stay
within `BATCH_SIZE`. -/
lemma uploadBatchesAux_spec :
    ∀ (fuel : Nat) (vs : List VectorRecord), vs.length ≤ fuel →
      (uploadBatchesAux fuel vs).flatten = vs ∧
      (uploadBatchesAux fuel vs).length = (vs.length + BATCH_SIZE - 1) / BATCH_SIZE ∧
      ∀ b ∈ uploadBatchesAux fuel vs, b.length ≤ BATCH_SIZE := by
  intro fuel
  induction fuel with
  | zero =>
    intro vs hvs
    have hnil : vs = [] := List.eq_nil_of_length_eq_zero (Nat.le_zero.mp hvs)
    subst hnil
    refine ⟨rfl, ?_, by intro b hb; cases hb⟩
    show (0 : Nat) = (0 + BATCH_SIZE - 1) / BATCH_SIZE
    exact (Nat.div_eq_of_lt (by decide)).symm
  | succ fuel ih =>
    intro vs hvs
    cases vs with
    | nil =>
      refine ⟨rfl, ?_, by intro b hb; cases hb⟩
      show (0 : Nat) = (0 + BATCH_SIZE - 1) / BATCH_SIZE
      exact (Nat.div_eq_of_lt (by decide)).symm
    | cons v vs' =>
      have hrest_fuel : ((v :: vs').drop BATCH_SIZE).length ≤ fuel := by
        rw [List.length_drop]
        have : (v :: vs').length = vs'.length + 1 := rfl
        rw [this]
        rw [this] at hvs
        have hB : 1 ≤ BATCH_SIZE := by decide
        omega
      obtain ⟨ihf, ihl, ihb⟩ := ih ((v :: vs').drop BATCH_SIZE) hrest_fuel
      refine ⟨?_, ?_, ?_⟩
      · show ((v :: vs').take BATCH_SIZE) ++ (uploadBatchesAux fuel ((v :: vs').drop BATCH_SIZE)).flatten
            = v :: vs'
        rw [ihf]
        exact List.take_append_drop BATCH_SIZE (v :: vs')
      · show (uploadBatchesAux fuel ((v :: vs').drop BATCH_SIZE)).length + 1
            = ((v :: vs').length + BATCH_SIZE - 1) / BATCH_SIZE
        rw [ihl, List.length_drop]
        exact (ceil_div_step BATCH_SIZE (v :: vs').length (by decide) (by simp)).symm
      · intro b hb
        cases hb with
        | head =>
          rw [List.length_take]
          exact min_le_left _ _
        | tail _ hmem => exact ihb b hmem

/-- Any result of `searchSimilarChunks` carries the queried tenant in its
`userId` field, because the filter keeps exactly the matches whose
metadata `userId` equals the queried one. -/
lemma userId_of_mem_searchSimilarChunks
    {store : Nat → List PineconeMatch} {userA : String} {maxResults : Nat}
    {r : SearchResult} (hr : r ∈ searchSimilarChunks store userA maxResults) :
    r.userId = some userA := by
  simp only [searchSimilarChunks, List.mem_map] at hr
  obtain ⟨m, hm, hmap⟩ := hr
  have hfil := List.mem_of_mem_take hm
  rw [List.mem_filter] at hfil
  have huser : m.metadata.bind MatchMetadata.userId = some userA := by
    have := hfil.2
    simpa using this
  rw [← hmap]
  simp [toSearchResult, huser]

/-- **C1.** Tenant isolation of search: every `SearchResult` returned by
`searchSimilarChunks` scoped to tenant `userId` has metadata tenant
exactly `userId`; consequently no result can carry a different tenant. -/
theorem searchSimilarChunks_tenant_isolation
    (store : Nat → List PineconeMatch) (userA : String) (maxResults : Nat)
    (r : SearchResult) (hr : r ∈ searchSimilarChunks store userA maxResults) :
    r.userId = some userA ∧ ∀ userB : String, userB ≠ userA → r.userId ≠ some userB := by
  have hres := userId_of_mem_searchSimilarChunks hr
  refine ⟨hres, ?_⟩
  intro userB hne hcontra
  rw [hres] at hcontra
  exact hne (by injection hcontra with h; exact h.symm)

/-- Witness for C1: on a concrete store holding matches for tenants
"alice" and "bob", a result of a query scoped to "alice" has tenant
"alice" and not "bob". -/
theorem searchSimilarChunks_tenant_isolation_witness :
    toSearchResult aliceMatch ∈ searchSimilarChunks mixedStore "alice" 5 ∧
    (toSearchResult aliceMatch).userId = some "alice" := by
  have hmem : toSearchResult aliceMatch ∈ searchSimilarChunks mixedStore "alice" 5 := by
    have hlist : searchSimilarChunks mixedStore "alice" 5 = [toSearchResult aliceMatch] := rfl
    rw [hlist]
    exact List.mem_singleton.mpr rfl
  exact ⟨hmem, (searchSimilarChunks_tenant_isolation mixedStore "alice" 5 _ hmem).1⟩

/-- **C7.** Client-side over-fetch filtering: `searchSimilarChunks`
requests `maxResults * 2` matches from the store (its output depends on
the store only at that argument), keeps only matches whose metadata
tenant is the queried one, truncates to at most `maxResults` results,
and preserves the store's descending-score order. -/
theorem searchSimilarChunks_overfetch_filter_truncate
    (store store₂ : Nat → List PineconeMatch) (userId : String) (maxResults : Nat)
    (hagree : store (maxResults * 2) = store₂ (maxResults * 2))
    (hsorted : List.Sorted (fun a b : PineconeMatch => b.score ≤ a.score)
      (store (maxResults * 2))) :
    searchSimilarChunks store userId maxResults = searchSimilarChunks store₂ userId maxResults ∧
    (searchSimilarChunks store userId maxResults).length ≤ maxResults ∧
    (∀ r ∈ searchSimilarChunks store userId maxResults, r.userId = some userId) ∧
    List.Sorted (fun a b : SearchResult => b.similarity ≤ a.similarity)
      (searchSimilarChunks store userId maxResults) := by
  refine ⟨?_, ?_, ?_, ?_⟩
  · simp only [searchSimilarChunks, hagree]
  · simp only [searchSimilarChunks, List.length_map]
    exact (List.length_take_le maxResults _).trans (le_refl _)
  · intro r hr
    exact userId_of_mem_searchSimilarChunks hr
  · have hsub : List.Sublist
        (((store (maxResults * 2)).filter fun m =>
            (m.metadata.bind MatchMetadata.userId) == some userId).take maxResults)
        (store (maxResults * 2)) :=
      List.Sublist.trans (List.take_sublist _ _) (List.filter_sublist _)
    have hpair := hsorted.sublist hsub
    simp only [searchSimilarChunks, List.Sorted, List.pairwise_map]
    exact hpair

/-- Witness for C7: the concrete two-tenant store agrees with itself,
its matches are listed in descending score order, and the theorem
applies. -/
theorem searchSimilarChunks_overfetch_filter_truncate_witness :
    (mixedStore (5 * 2) = mixedStore (5 * 2) ∧
      List.Sorted (fun a b : PineconeMatch => b.score ≤ a.score) (mixedStore (5 * 2))) ∧
    (searchSimilarChunks mixedStore "alice" 5 = searchSimilarChunks mixedStore "alice" 5 ∧
      (searchSimilarChunks mixedStore "alice" 5).length ≤ 5 ∧
      (∀ r ∈ searchSimilarChunks mixedStore "alice" 5, r.userId = some "alice") ∧
      List.Sorted (fun a b : SearchResult => b.similarity ≤ a.similarity)
        (searchSimilarChunks mixedStore "alice" 5)) := by
  have hsorted : List.Sorted (fun a b : PineconeMatch => b.score ≤ a.score) (mixedStore (5 * 2)) := by
    simp only [mixedStore, List.sorted_cons]
    refine ⟨?_, by simp⟩
    intro b hb
    simp only [List.mem_singleton] at hb
    subst hb
    simp [aliceMatch, bobMatch]
  exact ⟨⟨rfl, hsorted⟩,
    searchSimilarChunks_overfetch_filter_truncate mixedStore mixedStore "alice" 5 rfl hsorted⟩

/-- **C10.** Every match mapped into a `SearchResult` has a preview of at
most 300 characters: the first 300 characters of the metadata text when
the metadata carries text, and the fixed string "No text available" when
it carries none (absent or empty); `fullText` defaults to the empty
string in that case. -/
theorem toSearchResult_preview_bounded (m : PineconeMatch) :
    (toSearchResult m).preview.length ≤ 300 ∧
    (∀ t : String, m.metadata.bind MatchMetadata.text = some t → t ≠ "" →
      (toSearchResult m).preview = jsSlice t 300) ∧
    ((m.metadata.bind MatchMetadata.text = none ∨
        m.metadata.bind MatchMetadata.text = some "") →
      (toSearchResult m).preview = "No text available" ∧ (toSearchResult m).fullText = "") := by
  have hslice_len : ∀ t : String, (jsSlice t 300).length ≤ 300 := by
    intro t
    show (t.data.take 300).length ≤ 300
    rw [List.length_take]
    exact min_le_left _ _
  have hslice_ne : ∀ t : String, t ≠ "" → (jsSlice t 300).data ≠ [] := by
    intro t ht hcontra
    apply ht
    have : t.data = [] := by
      rcases (List.take_eq_nil_iff).mp hcontra with h | h
      · exact absurd h (by decide)
      · exact h
    cases t
    simp_all
  refine ⟨?_, ?_, ?_⟩
  · cases htext : m.metadata.bind MatchMetadata.text with
    | none =>
      have h1 : (toSearchResult m).preview = "No text available" := by
        simp [toSearchResult, htext]
      rw [h1]
      decide
    | some t =>
      by_cases hemp : (jsSlice t 300).data = []
      · have h1 : (toSearchResult m).preview = "No text available" := by
          simp [toSearchResult, htext, hemp]
        rw [h1]
        decide
      · have h1 : (toSearchResult m).preview = jsSlice t 300 := by
          simp [toSearchResult, htext, hemp]
        rw [h1]
        exact hslice_len t
  · intro t htext hne
    simp [toSearchResult, htext, hslice_ne t hne]
  · rintro (htext | htext)
    · constructor <;> simp [toSearchResult, htext]
    · have hemp : (jsSlice "" 300).data = [] := rfl
      constructor <;> simp [toSearchResult, htext, hemp]

/-- Witness for C10: a match with no metadata text maps to the fixed
preview and an empty `fullText`. -/
theorem toSearchResult_preview_bounded_witness :
    (toSearchResult textlessMatch).preview = "No text available" ∧
    (toSearchResult textlessMatch).fullText = "" :=
  (toSearchResult_preview_bounded textlessMatch).2.2 (Or.inl rfl)

/-- **C3.** Fixed-size chunking with no overlap: for every text and every
chunk size `C ≥ 1`, `createTextChunks` returns exactly `⌈L / C⌉` chunks
(`L` the text length), concatenating the chunk texts in order
reconstructs the input exactly, and the empty input yields the empty
chunk sequence. -/
theorem createTextChunks_count_and_reassembly (textContent : String) (chunkSize : Nat)
    (hC : 1 ≤ chunkSize) :
    (createTextChunks textContent chunkSize).length
        = (textContent.length + chunkSize - 1) / chunkSize ∧
    String.join ((createTextChunks textContent chunkSize).map TextChunk.text) = textContent ∧
    (textContent = "" → createTextChunks textContent chunkSize = []) := by
  obtain ⟨hjoin, hcount⟩ :=
    createTextChunksAux_spec chunkSize hC textContent.data.length 0 textContent.data (le_refl _)
  refine ⟨?_, ?_, ?_⟩
  · exact hcount
  · apply String.ext
    rw [stringJoin_data, List.map_map]
    exact hjoin
  · intro hemp
    subst hemp
    rfl

/-- Witness for C3: chunking "abcde" with chunk size 2 yields
`⌈5 / 2⌉ = 3` chunks that concatenate back to "abcde". -/
theorem createTextChunks_count_and_reassembly_witness :
    1 ≤ 2 ∧
    ((createTextChunks "abcde" 2).length = ("abcde".length + 2 - 1) / 2 ∧
      String.join ((createTextChunks "abcde" 2).map TextChunk.text) = "abcde" ∧
      ("abcde" = "" → createTextChunks "abcde" 2 = [])) :=
  ⟨by decide, createTextChunks_count_and_reassembly "abcde" 2 (by decide)⟩

/-- **C9 counterexample.** The reference scenario fails on the code:
chunking "The sky is blue. Grass is green." with `chunkSize = 20` cuts at
the fixed 20-character offset, not at the sentence boundary, so the chunk
texts are not `["The sky is blue. ", "Grass is green."]`. -/
theorem createTextChunks_scenario_counterexample :
    (createTextChunks "The sky is blue. Grass is green." 20).map TextChunk.text
      ≠ ["The sky is blue. ", "Grass is green."] := by
  decide

/-- **C9 amended.** Chunking "The sky is blue. Grass is green." with
`chunkSize = 20` produces exactly two chunks, whose texts are
"The sky is blue. Gra" and "ss is green." in that order. -/
theorem createTextChunks_scenario :
    (createTextChunks "The sky is blue. Grass is green." 20).map TextChunk.text
      = ["The sky is blue. Gra", "ss is green."] := by
  decide

/-- **C6.** Upsert batch-size invariant: uploading `n` vector records
issues exactly `⌈n / BATCH_SIZE⌉` sequential upsert calls, each carrying
at most `BATCH_SIZE = 100` records, and the batches concatenate back to
the record list in order — so every record appears in exactly one
batch. -/
theorem uploadChunksToPinecone_batching (vectorsToUpload : List VectorRecord) :
    (uploadChunksToPinecone vectorsToUpload).length
        = (vectorsToUpload.length + BATCH_SIZE - 1) / BATCH_SIZE ∧
    (∀ b ∈ uploadChunksToPinecone vectorsToUpload, b.length ≤ BATCH_SIZE) ∧
    (uploadChunksToPinecone vectorsToUpload).flatten = vectorsToUpload := by
  obtain ⟨hf, hl, hb⟩ :=
    uploadBatchesAux_spec vectorsToUpload.length vectorsToUpload (le_refl _)
  exact ⟨hl, hb, hf⟩

/-- Witness for C6: a single record is uploaded as one batch of one
record. -/
theorem uploadChunksToPinecone_batching_witness :
    (uploadChunksToPinecone [sampleRecord]).length
        = ([sampleRecord].length + BATCH_SIZE - 1) / BATCH_SIZE ∧
    (∀ b ∈ uploadChunksToPinecone [sampleRecord], b.length ≤ BATCH_SIZE) ∧
    (uploadChunksToPinecone [sampleRecord]).flatten = [sampleRecord] :=
  uploadChunksToPinecone_batching [sampleRecord]

/-- **C8 counterexample.** The quality filter has no
keep-if-it-would-empty-the-document fallback: the single splitter piece
"hi there" (2 words, below `minWords = 5`) is dropped, leaving zero
chunks although the unfiltered split was non-empty.  (The calling
controller then throws `No chunks created`.) -/
theorem createSemanticChunks_drops_sole_chunk :
    (["hi there"] : List String) ≠ [] ∧ createSemanticChunks ["hi there"] = [] := by
  constructor
  · simp
  · with_unfolding_all rfl

/-- **C8 amended.** Quality-filter floor without the fallback clause:
semantic chunking never returns a chunk whose word count is below 5 or
whose stored punctuation ratio exceeds 0.3; chunks failing the test are
always dropped, even when that leaves the document with zero chunks. -/
theorem createSemanticChunks_quality_floor (pieces : List String) (c : SemanticChunk)
    (hc : c ∈ createSemanticChunks pieces) :
    5 ≤ c.wordCount ∧ c.punctuationRatio ≤ 3/10 := by
  simp only [createSemanticChunks, List.mem_filter] at hc
  obtain ⟨-, hfil⟩ := hc
  simp only [Bool.not_eq_eq_eq_not, Bool.not_true, Bool.or_eq_false_iff,
    decide_eq_false_iff_not, not_lt] at hfil
  exact hfil

/-- Witness for C8: a clean five-word piece survives the filter and
satisfies the quality floor. -/
theorem createSemanticChunks_quality_floor_witness :
    mkSemanticChunk 0 "alpha beta gamma delta epsilon" ∈
      createSemanticChunks ["alpha beta gamma delta epsilon"] ∧
    (5 ≤ (mkSemanticChunk 0 "alpha beta gamma delta epsilon").wordCount ∧
      (mkSemanticChunk 0 "alpha beta gamma delta epsilon").punctuationRatio ≤ 3/10) := by
  have hlist : createSemanticChunks ["alpha beta gamma delta epsilon"]
      = [mkSemanticChunk 0 "alpha beta gamma delta epsilon"] := by
    with_unfolding_all rfl
  have hmem : mkSemanticChunk 0 "alpha beta gamma delta epsilon" ∈
      createSemanticChunks ["alpha beta gamma delta epsilon"] := by
    rw [hlist]
    exact List.mem_singleton.mpr rfl
  exact ⟨hmem, createSemanticChunks_quality_floor _ _ hmem⟩

/-- **C4.** Zero-match retrieval fallback: when the tenant-scoped search
returns no chunks, `sendPrompt` answers `200` with `success: true`, empty
`sources`, `chunksFound: 0` and the fixed fallback text — and the
response is the same for every generation collaborator `generate`, so
the chat-completion call is never invoked on this path. -/
theorem sendPrompt_zero_match_fallback (q userId : String) (maxResults : Nat)
    (includeMetadata : Bool) (store : Nat → List PineconeMatch)
    (g₁ g₂ : String → List SearchResult → String)
    (hq : ¬ jsTrim q = "")
    (hzero : searchSimilarChunks store userId maxResults = []) :
    sendPrompt (some q) maxResults includeMetadata (some userId) store g₁ =
      { status := 200, success := true, error := none, message := none,
        query := some q, answer := some fallbackAnswer, sources := [],
        chunksFound := some 0, maxSimilarity := none } ∧
    sendPrompt (some q) maxResults includeMetadata (some userId) store g₁ =
      sendPrompt (some q) maxResults includeMetadata (some userId) store g₂ := by
  have h : ∀ g : String → List SearchResult → String,
      sendPrompt (some q) maxResults includeMetadata (some userId) store g =
        { status := 200, success := true, error := none, message := none,
          query := some q, answer := some fallbackAnswer, sources := [],
          chunksFound := some 0, maxSimilarity := none } := by
    intro g
    simp only [sendPrompt, hzero]
    rw [if_neg hq]
    simp
  exact ⟨h g₁, (h g₁).trans (h g₂).symm⟩

/-- Witness for C4: a concrete non-blank query against an empty store
yields the fallback response, identically for two different generators. -/
theorem sendPrompt_zero_match_fallback_witness :
    (¬ jsTrim "What color is the sky?" = "" ∧
      searchSimilarChunks (fun _ => []) "alice" 5 = []) ∧
    (sendPrompt (some "What color is the sky?") 5 true (some "alice") (fun _ => [])
        (fun _ _ => "blue") =
      { status := 200, success := true, error := none, message := none,
        query := some "What color is the sky?", answer := some fallbackAnswer, sources := [],
        chunksFound := some 0, maxSimilarity := none } ∧
    sendPrompt (some "What color is the sky?") 5 true (some "alice") (fun _ => [])
        (fun _ _ => "blue") =
      sendPrompt (some "What color is the sky?") 5 true (some "alice") (fun _ => [])
        (fun _ _ => "green")) := by
  have hq : ¬ jsTrim "What color is the sky?" = "" := by decide
  have hz : searchSimilarChunks (fun _ => []) "alice" 5 = [] := rfl
  exact ⟨⟨hq, hz⟩,
    sendPrompt_zero_match_fallback "What color is the sky?" "alice" 5 true (fun _ => [])
      (fun _ _ => "blue") (fun _ _ => "green") hq hz⟩

/-- The per-file loop of the semantic controller renders each outcome
independently, in order. -/
lemma uploadFilesSemanticLoop_eq_map (outcomes : List FileOutcome) :
    uploadFilesSemanticLoop outcomes = outcomes.map renderFileResult := by
  induction outcomes with
  | nil => rfl
  | cons f fs ihs => simp [uploadFilesSemanticLoop, ihs]

/-- **C2 counterexample.** In the parallel ingestion controller
(`src/unnamed/part_003`, the `Promise.all` variant cited by the claim),
a batch with one failing and one succeeding document gets a 500 response
with `success: false` and an empty `results` array: the sibling's
success is not reported as its own entry, contradicting the claim for
this ingestion call. -/
theorem uploadFilesParallel_aborts_batch :
    (uploadFilesParallel mixedOutcomeBatch).success = false ∧
    (uploadFilesParallel mixedOutcomeBatch).results = [] ∧
    (uploadFilesParallel mixedOutcomeBatch).status = 500 ∧
    mixedOutcomeBatch.length = 2 :=
  ⟨rfl, rfl, rfl, rfl⟩

/-- **C2 amended.** Document failure isolation holds in the
semantic-chunking ingestion controller (`src/unnamed/part_004`): every
document's outcome becomes exactly its own entry of the per-document
result array (success entry or `{status: "error", error}` entry), one
entry per document in order, and the response stays 200/`success: true`
regardless of failures — so one document's failure never aborts or rolls
back a sibling.  The parallel controller of `src/unnamed/part_003`
instead fails the whole batch response when any document fails. -/
theorem uploadFilesSemantic_isolates_failures (outcomes : List FileOutcome) :
    (uploadFilesSemantic outcomes).status = 200 ∧
    (uploadFilesSemantic outcomes).success = true ∧
    (uploadFilesSemantic outcomes).results = outcomes.map renderFileResult := by
  exact ⟨rfl, rfl, uploadFilesSemanticLoop_eq_map outcomes⟩

/-- Tenant-agnostic semaphore invariant: along every reachable state the
counter equals the number of slot-holding tasks and stays within the
cap. -/
lemma embedStep_invariant (N : Nat) {s t : EmbedState}
    (hs : s.semaphore = holdingCount s ∧ s.semaphore ≤ N)
    (hst : EmbedStep N s t) :
    t.semaphore = holdingCount t ∧ t.semaphore ≤ N := by
  obtain ⟨hcount, hle⟩ := hs
  cases hst with
  | acquire tasks sem i hi hidle hwait =>
    have hget : tasks[i] = EmbedPhase.idle := by
      rw [← List.get_eq_getElem tasks ⟨i, hi⟩]
      exact hidle
    have hcs : holdingCount ⟨tasks.set i .holding, sem + 1⟩
        = tasks.countP (fun p => p == EmbedPhase.holding) + 1 := by
      show (tasks.set i EmbedPhase.holding).countP (fun p => p == EmbedPhase.holding)
          = tasks.countP (fun p => p == EmbedPhase.holding) + 1
      rw [List.countP_set _ _ _ _ hi, hget]
      simp
    have hcount' : sem = tasks.countP (fun p => p == EmbedPhase.holding) := hcount
    constructor
    · show sem + 1 = holdingCount ⟨tasks.set i .holding, sem + 1⟩
      rw [hcs, hcount']
    · exact hwait
  | releaseOk tasks sem i hi hholding =>
    have hget : tasks[i] = EmbedPhase.holding := by
      rw [← List.get_eq_getElem tasks ⟨i, hi⟩]
      exact hholding
    have hpos : 0 < tasks.countP (fun p => p == EmbedPhase.holding) :=
      List.countP_pos_iff.mpr ⟨tasks[i], List.getElem_mem hi, by simp [hget]⟩
    have hcs : holdingCount ⟨tasks.set i .doneOk, sem - 1⟩
        = tasks.countP (fun p => p == EmbedPhase.holding) - 1 := by
      show (tasks.set i EmbedPhase.doneOk).countP (fun p => p == EmbedPhase.holding)
          = tasks.countP (fun p => p == EmbedPhase.holding) - 1
      rw [List.countP_set _ _ _ _ hi, hget]
      simp
    have hcount' : sem = tasks.countP (fun p => p == EmbedPhase.holding) := hcount
    constructor
    · show sem - 1 = holdingCount ⟨tasks.set i .doneOk, sem - 1⟩
      rw [hcs, hcount']
    · have hle2 : sem ≤ N := hle
      show sem - 1 ≤ N
      omega
  | releaseErr tasks sem i hi hholding =>
    have hget : tasks[i] = EmbedPhase.holding := by
      rw [← List.get_eq_getElem tasks ⟨i, hi⟩]
      exact hholding
    have hpos : 0 < tasks.countP (fun p => p == EmbedPhase.holding) :=
      List.countP_pos_iff.mpr ⟨tasks[i], List.getElem_mem hi, by simp [hget]⟩
    have hcs : holdingCount ⟨tasks.set i .doneErr, sem - 1⟩
        = tasks.countP (fun p => p == EmbedPhase.holding) - 1 := by
      show (tasks.set i EmbedPhase.doneErr).countP (fun p => p == EmbedPhase.holding)
          = tasks.countP (fun p => p == EmbedPhase.holding) - 1
      rw [List.countP_set _ _ _ _ hi, hget]
      simp
    have hcount' : sem = tasks.countP (fun p => p == EmbedPhase.holding) := hcount
    constructor
    · show sem - 1 = holdingCount ⟨tasks.set i .doneErr, sem - 1⟩
      rw [hcs, hcount']
    · have hle2 : sem ≤ N := hle
      show sem - 1 ≤ N
      omega

/-- The invariant holds in every reachable state. -/
lemma embedReachable_invariant (N k : Nat) (s : EmbedState) (h : EmbedReachable N k s) :
    s.semaphore = holdingCount s ∧ s.semaphore ≤ N := by
  induction h with
  | refl =>
    constructor
    · show (0 : Nat) = (List.replicate k EmbedPhase.idle).countP fun p => p == EmbedPhase.holding
      rw [List.countP_replicate]
      simp
    · exact Nat.zero_le N
  | tail _ hstep ihs => exact embedStep_invariant N ihs hstep

/-- **C5.** Embedding concurrency cap with guaranteed slot release: in
every state reachable by any interleaving of `k` concurrent
`generateEmbeddingsForChunks` tasks under cap `N`, the semaphore counter
never exceeds `N` (acquiring requires the counter to be below `N`
first), and once every task has finished — successfully or by error,
both passing through the releasing `finally` — the counter is back to
zero: no slot leaks. -/
theorem embeddingSemaphore_bounded_and_released (N k : Nat) (s : EmbedState)
    (h : EmbedReachable N k s) :
    s.semaphore ≤ N ∧
    ((∀ p ∈ s.tasks, p = EmbedPhase.doneOk ∨ p = EmbedPhase.doneErr) → s.semaphore = 0) := by
  obtain ⟨hcount, hle⟩ := embedReachable_invariant N k s h
  refine ⟨hle, ?_⟩
  intro hdone
  rw [hcount]
  show s.tasks.countP (fun p => p == EmbedPhase.holding) = 0
  rw [List.countP_eq_zero]
  intro p hp
  rcases hdone p hp with h1 | h1 <;> simp [h1]

/-- Witness for C5: with cap 3 and one task, the trace
acquire-then-release reaches the all-done state, where the bound and the
zero counter hold. -/
theorem embeddingSemaphore_bounded_and_released_witness :
    EmbedReachable 3 1 ⟨[EmbedPhase.doneOk], 0⟩ ∧
    ((⟨[EmbedPhase.doneOk], 0⟩ : EmbedState).semaphore ≤ 3 ∧
      ((∀ p ∈ (⟨[EmbedPhase.doneOk], 0⟩ : EmbedState).tasks,
          p = EmbedPhase.doneOk ∨ p = EmbedPhase.doneErr) →
        (⟨[EmbedPhase.doneOk], 0⟩ : EmbedState).semaphore = 0)) := by
  have h1 : EmbedStep 3 ⟨[EmbedPhase.idle], 0⟩ ⟨[EmbedPhase.holding], 1⟩ :=
    EmbedStep.acquire [EmbedPhase.idle] 0 0 (by decide) rfl (by decide)
  have h2 : EmbedStep 3 ⟨[EmbedPhase.holding], 1⟩ ⟨[EmbedPhase.doneOk], 0⟩ :=
    EmbedStep.releaseOk [EmbedPhase.holding] 1 0 (by decide) rfl
  have hreach : EmbedReachable 3 1 ⟨[EmbedPhase.doneOk], 0⟩ :=
    Relation.ReflTransGen.tail (Relation.ReflTransGen.single h1) h2
  exact ⟨hreach, embeddingSemaphore_bounded_and_released 3 1 _ hreach⟩

end B2BGeoRAG
